/-
Verification of the BillGen receipt-tracking dashboard.

The embedding translates the three source files:
  * `src/types/receipt.ts`      — the `Receipt` record and `ReceiptStats` snapshot;
  * `src/components/ReceiptTable.tsx` — the filter/sort engine (`filteredAndSortedReceipts`);
  * `src/pages/Index.tsx`       — CSV export (`handleExport`), upload validation
    (`ReceiptUpload.handleFiles`) and the dashboard aggregation (`Dashboard` stats `useMemo`).

Conventions of the embedding:
  * JavaScript numbers are modelled as `ℚ` (amounts, confidences and comparator values);
  * a receipt's `date` string is always the ISO string `YYYY-MM-DD` produced by the mock
    generator, so it is embedded as a structured calendar date `SimpleDate`; the JS accessors
    `getMonth` (0-based), `getFullYear` and `getTime` (UTC ms since the epoch, via the standard
    civil-calendar day count) are defined on it;
  * `Array.prototype.sort` with a comparator `cmp` is stable (ES2019), so it is modelled by
    `List.mergeSort` with the boolean relation `cmp a b ≤ 0`;
  * a JS object used as a string-keyed counter is modelled as an insertion-ordered
    association list, and `Object.entries` as that list itself.
-/
import Mathlib

namespace BillGen

/-- A calendar date, with JS conventions: `month` is 0-based (January = 0),
`day` is 1-based. -/
structure SimpleDate where
  year : Int
  month : Int
  day : Int
deriving DecidableEq, Repr

/-- Days from the epoch 1970-01-01 for a civil date with 1-based month `m`
(the standard civil-from-days inverse used by JS engines for UTC dates). -/
def daysFromCivil (y m d : Int) : Int :=
  let y' : Int := if m ≤ 2 then y - 1 else y
  let era : Int := y'.fdiv 400
  let yoe : Int := y' - era * 400
  let mp : Int := (m + 9).emod 12
  let doy : Int := (153 * mp + 2).ediv 5 + d - 1
  let doe : Int := yoe * 365 + yoe.ediv 4 - yoe.ediv 100 + doy
  era * 146097 + doe - 719468

/-- JS `new Date("YYYY-MM-DD").getTime()`: UTC milliseconds since the epoch
(ISO date-only strings parse as UTC midnight). -/
def SimpleDate.getTime (d : SimpleDate) : Int :=
  daysFromCivil d.year (d.month + 1) d.day * 86400000

/-- One receipt record (`Receipt` in `src/types/receipt.ts`). -/
structure Receipt where
  id : String
  vendor : String
  date : SimpleDate
  amount : ℚ
  category : String
  fileName : String
  fileType : String
  confidence : ℚ
deriving DecidableEq, Repr

/-- A placeholder receipt used only as the out-of-range default of `List.getD`
(JS indexing out of range would be `undefined`; all uses are proved in range). -/
def dummyReceipt : Receipt :=
  ⟨"", "", ⟨1970, 0, 1⟩, 0, "", "", "", 0⟩

/- ### String helpers (JS `toLowerCase` / `includes` / `localeCompare`) -/

/-- Predicate `chStarts needle hay`: `needle` is an initial segment of `hay`. -/
def chStarts : List Char → List Char → Bool
  | [], _ => true
  | _ :: _, [] => false
  | a :: as, b :: bs => a = b && chStarts as bs

/-- Predicate `chIncl needle hay`: `needle` occurs as a contiguous run of `hay`
(the empty needle occurs everywhere, as with JS `String.prototype.includes`). -/
def chIncl (needle : List Char) : List Char → Bool
  | [] => needle.isEmpty
  | b :: bs => chStarts needle (b :: bs) || chIncl needle bs

/-- JS `s.includes(sub)`. -/
def strIncludes (s sub : String) : Bool :=
  chIncl sub.data s.data

/-- JS `a.localeCompare(b)` modelled as the standard three-way string
comparison (-1 / 0 / 1), as a JS number. -/
def strCmp (a b : String) : ℚ :=
  if a < b then -1 else if b < a then 1 else 0

/- ### Filter/sort engine (`ReceiptTable.tsx`, `filteredAndSortedReceipts`) -/

/-- The table's sort key (`type SortField`). -/
inductive SortField where
  | date | amount | vendor | category
deriving DecidableEq, Repr

/-- The table's sort direction (`type SortDirection`). -/
inductive SortDirection where
  | asc | desc
deriving DecidableEq, Repr

/-- The moment `new Date()` observed while filtering: a calendar date plus the
milliseconds elapsed within that day, so `getTime` and `getFullYear` are consistent. -/
structure NowTime where
  date : SimpleDate
  clockMs : Int
deriving DecidableEq, Repr

/-- JS `now.getTime()` for the filter's evaluation time. -/
def NowTime.getTime (n : NowTime) : Int :=
  n.date.getTime + n.clockMs

/-- The user-controlled filter state of the receipt table: free-text query,
category filter (`"all"` = off), date window (`"all"` / `"last30"` / `"last90"` /
`"thisYear"`), optional inclusive amount bounds (`none` = empty input box),
and the evaluation time. -/
structure FilterState where
  searchTerm : String
  categoryFilter : String
  dateFilter : String
  amountMin : Option ℚ
  amountMax : Option ℚ
  now : NowTime
deriving DecidableEq, Repr

/-- Text search across vendor and category:
`[vendor, category].join(' ').toLowerCase().includes(searchTerm.toLowerCase())`,
short-circuited to `true` by an empty search term. -/
def matchesSearch (fs : FilterState) (r : Receipt) : Bool :=
  fs.searchTerm = "" ||
    strIncludes (String.toLower (r.vendor ++ " " ++ r.category)) (String.toLower fs.searchTerm)

/-- Category filter: `categoryFilter === 'all' || receipt.category === categoryFilter`. -/
def matchesCategory (fs : FilterState) (r : Receipt) : Bool :=
  fs.categoryFilter = "all" || r.category = fs.categoryFilter

/-- Date-window filter: trailing 30 days, trailing 90 days, current calendar
year, or no restriction. -/
def matchesDate (fs : FilterState) (r : Receipt) : Bool :=
  if fs.dateFilter = "last30" then
    fs.now.getTime - 30 * 24 * 60 * 60 * 1000 ≤ r.date.getTime
  else if fs.dateFilter = "last90" then
    fs.now.getTime - 90 * 24 * 60 * 60 * 1000 ≤ r.date.getTime
  else if fs.dateFilter = "thisYear" then
    r.date.year = fs.now.date.year
  else
    true

/-- Inclusive amount-range filter; an empty bound imposes no constraint. -/
def matchesAmount (fs : FilterState) (r : Receipt) : Bool :=
  (match fs.amountMin with | none => true | some lo => lo ≤ r.amount) &&
  (match fs.amountMax with | none => true | some hi => r.amount ≤ hi)

/-- The comparator of the table's sort (`switch (sortField)`), as a JS number:
date by timestamp difference, amount by difference, vendor/category by
`localeCompare`. -/
def cmpField : SortField → Receipt → Receipt → ℚ
  | .date, a, b => ((a.date.getTime - b.date.getTime : Int) : ℚ)
  | .amount, a, b => a.amount - b.amount
  | .vendor, a, b => strCmp a.vendor b.vendor
  | .category, a, b => strCmp a.category b.category

/-- The comparator actually handed to `sort`:
`sortDirection === 'asc' ? comparison : -comparison`. -/
def dirCmp (sf : SortField) (sd : SortDirection) (a b : Receipt) : ℚ :=
  match sd with
  | .asc => cmpField sf a b
  | .desc => -(cmpField sf a b)

/-- The boolean "less or equal" relation induced by the comparator, used by the
stable-sort model of `Array.prototype.sort`. -/
def sortLE (sf : SortField) (sd : SortDirection) (a b : Receipt) : Bool :=
  dirCmp sf sd a b ≤ 0

/-- The engine `filteredAndSortedReceipts` of `ReceiptTable.tsx`: filter by the
conjunction of the four predicate families, then stable-sort by the chosen
key and direction. -/
def filteredAndSortedReceipts (receipts : List Receipt) (fs : FilterState)
    (sf : SortField) (sd : SortDirection) : List Receipt :=
  let filtered := receipts.filter fun r =>
    matchesSearch fs r && matchesCategory fs r && matchesDate fs r && matchesAmount fs r
  filtered.mergeSort (sortLE sf sd)

/- ### Aggregation engine (`Dashboard` stats `useMemo` in `Index.tsx`) -/

/-- One point of the 6-month spending trend (`{ month: string; amount: number }`). -/
structure TrendPoint where
  month : String
  amount : ℚ
deriving DecidableEq, Repr

/-- The derived statistics snapshot (`ReceiptStats` in `src/types/receipt.ts`).
The JS objects `categoryBreakdown` and the vendor counter are insertion-ordered
string-keyed maps, modelled as association lists. -/
structure ReceiptStats where
  totalReceipts : Nat
  totalAmount : ℚ
  averageAmount : ℚ
  medianAmount : ℚ
  topVendor : String
  currentMonthSpend : ℚ
  lastMonthSpend : ℚ
  categoryBreakdown : List (String × ℚ)
  monthlyTrend : List TrendPoint
deriving DecidableEq, Repr

/-- The total: `receipts.reduce((sum, receipt) => sum + receipt.amount, 0)`. -/
def totalAmountOf (receipts : List Receipt) : ℚ :=
  receipts.foldl (fun sum r => sum + r.amount) 0

/-- The average: `totalAmount / receipts.length`. -/
def averageAmountOf (receipts : List Receipt) : ℚ :=
  totalAmountOf receipts / (receipts.length : ℚ)

/-- The copy `[...receipts].sort((a, b) => a.amount - b.amount)` (stable). -/
def sortedByAmount (receipts : List Receipt) : List Receipt :=
  receipts.mergeSort fun a b => decide (a.amount - b.amount ≤ 0)

/-- The dashboard's median: for even count the mean of the elements at
`length/2 - 1` and `length/2` of the amount-sorted copy, for odd count the
element at `Math.floor(length/2)`. -/
def medianAmountOf (receipts : List Receipt) : ℚ :=
  if receipts.length % 2 = 0 then
    (((sortedByAmount receipts).getD (receipts.length / 2 - 1) dummyReceipt).amount +
      ((sortedByAmount receipts).getD (receipts.length / 2) dummyReceipt).amount) / 2
  else
    ((sortedByAmount receipts).getD (receipts.length / 2) dummyReceipt).amount

/-- One step `acc[v] = (acc[v] || 0) + 1` on an insertion-ordered string-keyed object. -/
def bumpCount : List (String × Nat) → String → List (String × Nat)
  | [], v => [(v, 1)]
  | (k, c) :: rest, v => if k = v then (k, c + 1) :: rest else (k, c) :: bumpCount rest v

/-- The counter `receipts.reduce((acc, receipt) => ..., {})` over vendors. -/
def vendorCountsOf (receipts : List Receipt) : List (String × Nat) :=
  receipts.foldl (fun acc r => bumpCount acc r.vendor) []

/-- The pick `Object.entries(vendorCounts).sort(([,a],[,b]) => b - a)[0]?.[0] || ''`:
stable-sort the (vendor, count) entries by descending count and take the first
vendor, or the empty string when there are no entries. -/
def topVendorOf (receipts : List Receipt) : String :=
  match (vendorCountsOf receipts).mergeSort (fun x y => decide (y.2 ≤ x.2)) with
  | [] => ""
  | e :: _ => e.1

/-- One step `acc[c] = (acc[c] || 0) + amount` on an insertion-ordered string-keyed object. -/
def bumpAmount : List (String × ℚ) → String → ℚ → List (String × ℚ)
  | [], c, a => [(c, a)]
  | (k, s) :: rest, c, a => if k = c then (k, s + a) :: rest else (k, s) :: bumpAmount rest c a

/-- The category breakdown: amount summed per category, categories in first-seen order. -/
def categoryBreakdownOf (receipts : List Receipt) : List (String × ℚ) :=
  receipts.foldl (fun acc r => bumpAmount acc r.category r.amount) []

/-- The index `currentMonth === 0 ? 11 : currentMonth - 1`. -/
def lastMonthOf (now : SimpleDate) : Int :=
  if now.month = 0 then 11 else now.month - 1

/-- The year `currentMonth === 0 ? currentYear - 1 : currentYear`. -/
def lastMonthYearOf (now : SimpleDate) : Int :=
  if now.month = 0 then now.year - 1 else now.year

/-- The repeated `receipts.filter(r => date.getMonth() === m && date.getFullYear() === y)
.reduce((sum, r) => sum + r.amount, 0)` pattern of the dashboard. -/
def monthSpend (receipts : List Receipt) (month year : Int) : ℚ :=
  (receipts.filter fun r => decide (r.date.month = month ∧ r.date.year = year)).foldl
    (fun sum r => sum + r.amount) 0

/-- Sum of amounts in the month of `now`. -/
def currentMonthSpendOf (receipts : List Receipt) (now : SimpleDate) : ℚ :=
  monthSpend receipts now.month now.year

/-- Sum of amounts in the month before `now` (with year rollover at January). -/
def lastMonthSpendOf (receipts : List Receipt) (now : SimpleDate) : ℚ :=
  monthSpend receipts (lastMonthOf now) (lastMonthYearOf now)

/-- The year/month normalisation the JS `Date(year, month, 1)` constructor
performs on an out-of-range month argument (floor division by 12). -/
def jsMonthNorm (y m : Int) : Int × Int :=
  (y + m / 12, m % 12)

/-- The `en-US` short month names, as produced by
`toLocaleDateString('en-US', { month: 'short', ... })`. -/
def monthShortNames : List String :=
  ["Jan", "Feb", "Mar", "Apr", "May", "Jun", "Jul", "Aug", "Sep", "Oct", "Nov", "Dec"]

/-- The label of a (0-based) month number. -/
def monthName (m : Int) : String :=
  monthShortNames.getD m.toNat ""

/-- The trend point for the month `i` months before `now`: the `'en-US'`
`{ month: 'short', year: 'numeric' }` label and that month's summed amount. -/
def trendPointOf (receipts : List Receipt) (now : SimpleDate) (i : Int) : TrendPoint :=
  let t := jsMonthNorm now.year (now.month - i)
  ⟨monthName t.2 ++ " " ++ toString t.1, monthSpend receipts t.2 t.1⟩

/-- The `for (let i = 5; i >= 0; i--) { ...; monthlyTrend.push(...) }` loop:
trend points for offsets 5 down to 0. -/
def monthlyTrendOf (receipts : List Receipt) (now : SimpleDate) : List TrendPoint :=
  (List.range 6).map fun j : Nat => trendPointOf receipts now (5 - (j : Int))

/-- The all-zero/empty snapshot returned for an empty record set. -/
def emptyStats : ReceiptStats :=
  ⟨0, 0, 0, 0, "", 0, 0, [], []⟩

/-- The dashboard's stats `useMemo`: the empty snapshot for an empty record
set, otherwise the aggregations over the full set, evaluated at `now`. -/
def computeStats (receipts : List Receipt) (now : SimpleDate) : ReceiptStats :=
  if receipts.length = 0 then emptyStats
  else
    { totalReceipts := receipts.length
      totalAmount := totalAmountOf receipts
      averageAmount := averageAmountOf receipts
      medianAmount := medianAmountOf receipts
      topVendor := topVendorOf receipts
      currentMonthSpend := currentMonthSpendOf receipts now
      lastMonthSpend := lastMonthSpendOf receipts now
      categoryBreakdown := categoryBreakdownOf receipts
      monthlyTrend := monthlyTrendOf receipts now }

/- ### CSV export (`handleExport` in `Index.tsx`) -/

/-- Zero-pad a number to two digits. -/
def pad2 (n : Nat) : String :=
  if n < 10 then "0" ++ toString n else toString n

/-- Zero-pad a number to four digits. -/
def pad4 (n : Nat) : String :=
  if n < 10 then "000" ++ toString n
  else if n < 100 then "00" ++ toString n
  else if n < 1000 then "0" ++ toString n
  else toString n

/-- The ISO `YYYY-MM-DD` rendering of a date — the string held by the
`date` field of a receipt in the source (`toISOString().split('T')[0]`). -/
def dateToISO (d : SimpleDate) : String :=
  pad4 d.year.toNat ++ "-" ++ pad2 (d.month + 1).toNat ++ "-" ++ pad2 d.day.toNat

/-- Digits of a non-negative amount of cents as `units.cc`. -/
def centsToString (m : Int) : String :=
  toString (m.toNat / 100) ++ "." ++ pad2 (m.toNat % 100)

/-- JS `x.toFixed(2)`: the integer nearest to `100·x` with ties resolved to
the larger candidate — that is `⌊100x + 1/2⌋`, computed here on the
fraction's numerator and denominator — printed with exactly two decimals. -/
def toFixed2 (q : ℚ) : String :=
  let n : Int := (q.num * 200 + (q.den : Int)).fdiv (2 * (q.den : Int))
  if n < 0 then "-" ++ centsToString (-n) else centsToString n

/-- The header cells `['Date', 'Vendor', 'Amount', 'Category', 'File', 'Confidence']`. -/
def csvHeaderCells : List String :=
  ["Date", "Vendor", "Amount", "Category", "File", "Confidence"]

/-- One CSV data row: the six fields joined with commas, vendor and file name
double-quoted, amount and confidence with two decimals. -/
def csvRowOf (r : Receipt) : String :=
  String.intercalate ","
    [dateToISO r.date, "\"" ++ r.vendor ++ "\"", toFixed2 r.amount,
      r.category, "\"" ++ r.fileName ++ "\"", toFixed2 r.confidence]

/-- The text `csvContent`: the header row followed by one row per record of the full
record set, in its current order, joined with newlines. -/
def csvContentOf (receipts : List Receipt) : String :=
  String.intercalate "\n" (String.intercalate "," csvHeaderCells :: receipts.map csvRowOf)

/-- The observable outcome of `handleExport`: the downloaded CSV text (if
any), whether the destructive "No data to export" notice fired, and the
record set afterwards (`handleExport` never mutates it). -/
structure ExportOutcome where
  download : Option String
  errorNotice : Bool
  receiptsAfter : List Receipt
deriving DecidableEq, Repr

/-- The action `handleExport`: on an empty record set report the error and return
without building CSV; otherwise build and download the CSV. -/
def handleExport (receipts : List Receipt) : ExportOutcome :=
  if receipts.length = 0 then ⟨none, true, receipts⟩
  else ⟨some (csvContentOf receipts), false, receipts⟩

/- ### Upload validation (`ReceiptUpload.handleFiles` in `Index.tsx`) -/

/-- What upload validation sees of a browser `File`: name, MIME type, byte size. -/
structure FileMeta where
  name : String
  mime : String
  size : Nat
deriving DecidableEq, Repr

/-- The allow-list `['image/jpeg', 'image/png', 'application/pdf', 'text/plain']`. -/
def allowedTypes : List String :=
  ["image/jpeg", "image/png", "application/pdf", "text/plain"]

/-- The per-file predicate of `handleFiles`: reject an unlisted MIME type,
then reject a size over the 10 MB limit, else accept. -/
def fileValid (f : FileMeta) : Bool :=
  if ¬ allowedTypes.contains f.mime then false
  else if f.size > 10 * 1024 * 1024 then false
  else true

/-- The validation `handleFiles` over one batch: the accepted files (in order), paired with
the names of the rejected files, one per-file notice each. -/
def handleFiles (newFiles : List FileMeta) : List FileMeta × List String :=
  (newFiles.filter fileValid, (newFiles.filter fun f => ! fileValid f).map FileMeta.name)

/- ### Specification-side definitions, written from the spec's words, for
refinement comparisons against the embedded code. -/

/-- Spec: "sum of amounts whose transaction date's calendar month+year matches"
a given month — a plain sum over the matching records. -/
def specMonthSum (receipts : List Receipt) (y m : Int) : ℚ :=
  ((receipts.filter fun r => decide (r.date.year = y ∧ r.date.month = m)).map Receipt.amount).sum

/-- Spec: "now minus one calendar month ... if now is January, last month
resolves to December of the previous year" (as year, 0-based month). -/
def specPrevMonth (now : SimpleDate) : Int × Int :=
  if now.month = 0 then (now.year - 1, 11) else (now.year, now.month - 1)

/-- Spec: "the calendar month `k` months before now" (valid for `k ≤ 12` and a
0-based month in `[0, 11]`), as (year, 0-based month). -/
def specMonthBack (now : SimpleDate) (k : Nat) : Int × Int :=
  if (k : Int) ≤ now.month then (now.year, now.month - k) else (now.year - 1, now.month - k + 12)

/-- Spec: "sort amounts ascending; for odd count take the middle element; for
even count average the two central elements". -/
def specMedian (xs : List ℚ) : ℚ :=
  let s := xs.mergeSort fun a b => decide (a ≤ b)
  if xs.length % 2 = 1 then s.getD (xs.length / 2) 0
  else (s.getD (xs.length / 2 - 1) 0 + s.getD (xs.length / 2) 0) / 2

/-- Spec: a CSV field "quoted to tolerate embedded delimiters". -/
def quoteCell (s : String) : String :=
  "\"" ++ s ++ "\""

/-- Spec: one CSV data row — date, quoted vendor, two-decimal amount,
category, quoted file name, two-decimal confidence, comma-separated. -/
def specCsvRow (r : Receipt) : String :=
  dateToISO r.date ++ "," ++ quoteCell r.vendor ++ "," ++ toFixed2 r.amount ++ "," ++
    r.category ++ "," ++ quoteCell r.fileName ++ "," ++ toFixed2 r.confidence

/-- The read `acc[v] || 0`: the count held for key `v` in the vendor counter
(0 when absent). -/
def lookupC : List (String × Nat) → String → Nat
  | [], _ => 0
  | (k, c) :: t, v => if k = v then c else lookupC t v

/-- The sort key of a receipt under a sort field, as a `≤` comparison
(date by timestamp, amount numerically, vendor/category as strings). -/
def fieldLE (sf : SortField) (a b : Receipt) : Prop :=
  match sf with
  | .date => a.date.getTime ≤ b.date.getTime
  | .amount => a.amount ≤ b.amount
  | .vendor => a.vendor ≤ b.vendor
  | .category => a.category ≤ b.category

/-- The intended order of the table: the key order for ascending sorts, its
reverse for descending sorts. -/
def dirFieldLE (sf : SortField) (sd : SortDirection) (a b : Receipt) : Prop :=
  match sd with
  | .asc => fieldLE sf a b
  | .desc => fieldLE sf b a

/- ### Sample data for concrete instances -/

/-- An evaluation time in October 2025. -/
def sampleNow : SimpleDate := ⟨2025, 9, 11⟩

/-- An evaluation time in January 2025 (month 0, for rollover instances). -/
def sampleJan : SimpleDate := ⟨2025, 0, 5⟩

/-- A concrete receipt: 5 currency units of dining in January 2025. -/
def sampleReceipt : Receipt :=
  ⟨"r1", "Cafe", ⟨2025, 0, 15⟩, 5, "dining", "r.png", "image/png", Rat.divInt 9 10⟩

/-- A concrete receipt: 20 currency units of groceries in October 2025. -/
def sampleReceipt2 : Receipt := ⟨"r2", "Mart", ⟨2025, 9, 2⟩, 20, "groceries", "m.png", "image/png", 1⟩

/-- A concrete receipt of amount 10 (for the median instances). -/
def median10 : Receipt := ⟨"m1", "A", ⟨2025, 3, 1⟩, 10, "other", "a.png", "image/png", 1⟩

/-- A concrete receipt of amount 20 (for the median instances). -/
def median20 : Receipt := ⟨"m2", "B", ⟨2025, 3, 2⟩, 20, "other", "b.png", "image/png", 1⟩

/-- A concrete receipt of amount 30 (for the median instances). -/
def median30 : Receipt := ⟨"m3", "C", ⟨2025, 3, 3⟩, 30, "other", "c.png", "image/png", 1⟩

/-- A concrete receipt of amount 40 (for the median instances). -/
def median40 : Receipt := ⟨"m4", "D", ⟨2025, 3, 4⟩, 40, "other", "d.png", "image/png", 1⟩

/-- A concrete filter state whose only active filter is the category filter,
set to "dining". -/
def diningFilter : FilterState := ⟨"", "dining", "all", none, none, ⟨sampleNow, 0⟩⟩

/- ### Helper lemmas -/

theorem foldl_add_amount (l : List Receipt) (a : ℚ) :
    l.foldl (fun sum r => sum + r.amount) a = a + (l.map Receipt.amount).sum := by
  induction l generalizing a with
  | nil => simp
  | cons r t ih => simp [ih, add_assoc]

theorem monthSpend_eq_spec (l : List Receipt) (m y : Int) :
    monthSpend l m y = specMonthSum l y m := by
  unfold monthSpend specMonthSum
  rw [foldl_add_amount, zero_add]
  have hf : (l.filter fun r => decide (r.date.month = m ∧ r.date.year = y))
      = l.filter fun r => decide (r.date.year = y ∧ r.date.month = m) :=
    List.filter_congr fun r _ => decide_eq_decide.mpr and_comm
  rw [hf]

theorem length_filter_partition {α : Type} (p : α → Bool) (l : List α) :
    (l.filter p).length + (l.filter fun x => ! p x).length = l.length := by
  induction l with
  | nil => rfl
  | cons h t ih => by_cases hp : p h <;> simp [List.filter, hp] <;> omega

/- ### Claim theorems -/

/-- C8: with an empty record set, `handleExport` reports the error and aborts:
no CSV text is constructed (no download), and the in-memory record set is
left unchanged (still empty). -/
theorem export_empty_set_aborts :
    handleExport [] = ⟨none, true, []⟩ := rfl

/-- C9: a file passes upload validation iff its MIME type is one of the four
allowed types and its size is at most 10 MB; the accepted files of a batch are
exactly its valid files (a rejected file does not block the others); every
file of a batch is either accepted or noticed; `application/zip` is rejected
regardless of size; a 15 MB JPEG is rejected despite its valid type. -/
theorem upload_validation_accepts_iff (f g : FileMeta) (batch : List FileMeta)
    (nm : String) (size : Nat) :
    (fileValid f = true ↔ (f.mime ∈ allowedTypes ∧ f.size ≤ 10 * 1024 * 1024)) ∧
    (g ∈ (handleFiles batch).1 ↔ (g ∈ batch ∧ fileValid g = true)) ∧
    ((handleFiles batch).1.length + (handleFiles batch).2.length = batch.length) ∧
    (fileValid ⟨nm, "application/zip", size⟩ = false) ∧
    (fileValid ⟨nm, "image/jpeg", 15 * 1024 * 1024⟩ = false) := by
  refine ⟨?_, ?_, ?_, ?_, ?_⟩
  · unfold fileValid
    split_ifs with h1 h2 <;> simp_all [List.contains, List.elem_iff]
  · simp [handleFiles, List.mem_filter]
  · rw [handleFiles]
    simp only [List.length_map]
    exact length_filter_partition fileValid batch
  · unfold fileValid
    simp [allowedTypes]
  · unfold fileValid
    simp [allowedTypes]

/-- Witness for C9: a 100-byte PNG is accepted, via the validation theorem. -/
theorem upload_validation_accepts_iff_witness :
    fileValid ⟨"a.png", "image/png", 100⟩ = true :=
  ((upload_validation_accepts_iff ⟨"a.png", "image/png", 100⟩
      ⟨"a.png", "image/png", 100⟩ [] "" 0).1).mpr ⟨by decide, by decide⟩

/-- C2: the empty record set yields the all-zero/empty snapshot, and for any
non-empty record set the average times the record count equals the total
amount. -/
theorem aggregation_empty_and_average (receipts : List Receipt) (now : SimpleDate) :
    computeStats [] now = emptyStats ∧
    (receipts ≠ [] →
      (computeStats receipts now).averageAmount * ((computeStats receipts now).totalReceipts : ℚ)
        = (computeStats receipts now).totalAmount) := by
  constructor
  · rfl
  · intro h
    have hl : ¬ receipts.length = 0 := by simpa [List.length_eq_zero] using h
    rw [computeStats, if_neg hl]
    dsimp only
    rw [averageAmountOf]
    exact div_mul_cancel₀ _ (Nat.cast_ne_zero.mpr hl)

/-- Witness for C2 at a concrete one-record set. -/
theorem aggregation_empty_and_average_witness :
    computeStats [] sampleNow = emptyStats ∧
    (computeStats [sampleReceipt] sampleNow).averageAmount *
        ((computeStats [sampleReceipt] sampleNow).totalReceipts : ℚ)
      = (computeStats [sampleReceipt] sampleNow).totalAmount :=
  ⟨(aggregation_empty_and_average [sampleReceipt] sampleNow).1,
    (aggregation_empty_and_average [sampleReceipt] sampleNow).2 (List.cons_ne_nil _ _)⟩

/-- C4: for every record set and evaluation time, `currentMonthSpend` sums the
amounts dated in the current calendar month+year and `lastMonthSpend` those of
the previous calendar month, with January resolving to December of the
previous year. -/
theorem month_spends_match_calendar (receipts : List Receipt) (now : SimpleDate) :
    (computeStats receipts now).currentMonthSpend = specMonthSum receipts now.year now.month ∧
    (computeStats receipts now).lastMonthSpend
      = specMonthSum receipts (specPrevMonth now).1 (specPrevMonth now).2 ∧
    (now.month = 0 →
      (computeStats receipts now).lastMonthSpend = specMonthSum receipts (now.year - 1) 11) := by
  by_cases hl : receipts.length = 0
  · have hnil : receipts = [] := List.length_eq_zero.mp hl
    subst hnil
    refine ⟨by simp [computeStats, emptyStats, specMonthSum], ?_, ?_⟩ <;>
      simp [computeStats, emptyStats, specMonthSum]
  · rw [computeStats, if_neg hl]
    refine ⟨?_, ?_, ?_⟩
    · exact monthSpend_eq_spec receipts now.month now.year
    · rw [lastMonthSpendOf, monthSpend_eq_spec]
      by_cases h0 : now.month = 0 <;>
        simp [lastMonthOf, lastMonthYearOf, specPrevMonth, h0]
    · intro h0
      rw [lastMonthSpendOf, monthSpend_eq_spec]
      simp [lastMonthOf, lastMonthYearOf, h0]

/-- Witness for C4: the January rollover at a concrete input. -/
theorem month_spends_match_calendar_witness :
    (computeStats [sampleReceipt] sampleJan).lastMonthSpend
      = specMonthSum [sampleReceipt] (2025 - 1) 11 :=
  (month_spends_match_calendar [sampleReceipt] sampleJan).2.2 rfl

theorem map_amount_getD (l : List Receipt) (k : Nat) (hk : k < l.length) :
    (l.map Receipt.amount).getD k 0 = (l.getD k dummyReceipt).amount := by
  rw [List.getD_eq_getElem _ _ (by simpa using hk), List.getD_eq_getElem _ _ hk]
  exact List.getElem_map _

theorem sortedByAmount_map (l : List Receipt) :
    (sortedByAmount l).map Receipt.amount
      = (l.map Receipt.amount).mergeSort fun a b => decide (a ≤ b) := by
  have htrans : ∀ a b c : Receipt, (decide (a.amount - b.amount ≤ 0)) = true →
      (decide (b.amount - c.amount ≤ 0)) = true → (decide (a.amount - c.amount ≤ 0)) = true := by
    intro a b c hab hbc
    simp only [decide_eq_true_eq] at *
    linarith
  have htotal : ∀ a b : Receipt,
      ((decide (a.amount - b.amount ≤ 0)) || (decide (b.amount - a.amount ≤ 0))) = true := by
    intro a b
    simp only [Bool.or_eq_true, decide_eq_true_eq, sub_nonpos]
    exact le_total _ _
  have h1 : List.Sorted (· ≤ ·) ((sortedByAmount l).map Receipt.amount) := by
    rw [List.Sorted, List.pairwise_map]
    exact (List.sorted_mergeSort htrans htotal l).imp
      (fun hab => by simpa [sub_nonpos] using of_decide_eq_true hab)
  have h2 : List.Sorted (· ≤ ·) ((l.map Receipt.amount).mergeSort fun a b => decide (a ≤ b)) := by
    have hs := @List.sorted_mergeSort ℚ (fun a b : ℚ => decide (a ≤ b))
      (by intro a b c hab hbc; simp only [decide_eq_true_eq] at *; linarith)
      (by intro a b; simp only [Bool.or_eq_true, decide_eq_true_eq]; exact le_total a b)
      (l.map Receipt.amount)
    exact hs.imp fun h => of_decide_eq_true h
  exact List.eq_of_perm_of_sorted
    (((List.mergeSort_perm l _).map _).trans (List.mergeSort_perm _ _).symm) h1 h2

theorem medianAmountOf_eq_specMedian (receipts : List Receipt) (h : receipts ≠ []) :
    medianAmountOf receipts = specMedian (receipts.map Receipt.amount) := by
  have hl : ¬ receipts.length = 0 := by simpa [List.length_eq_zero] using h
  unfold medianAmountOf specMedian
  simp only [List.length_map]
  have hlen : ∀ k, k < receipts.length →
      ((sortedByAmount receipts).getD k dummyReceipt).amount
        = ((receipts.map Receipt.amount).mergeSort fun a b => decide (a ≤ b)).getD k 0 := by
    intro k hk
    have hk' : k < (sortedByAmount receipts).length := by
      rw [sortedByAmount, (List.mergeSort_perm receipts _).length_eq]
      exact hk
    rw [← map_amount_getD _ _ hk', sortedByAmount_map]
  by_cases hpar : receipts.length % 2 = 0
  · rw [if_pos hpar, if_neg (by omega)]
    rw [hlen _ (by omega), hlen _ (by omega)]
  · rw [if_neg hpar, if_pos (by omega)]
    rw [hlen _ (by omega)]

/-- C3: for every non-empty record set the dashboard's median equals the
spec's median of the amounts (ascending sort, middle element for odd count,
mean of the two central elements for even count); in particular the median of
amounts [10, 20, 30] is 20 and of [10, 20, 30, 40] is 25. -/
theorem median_matches_spec (receipts : List Receipt) (now : SimpleDate) :
    (receipts ≠ [] →
      (computeStats receipts now).medianAmount = specMedian (receipts.map Receipt.amount)) ∧
    (computeStats [median10, median20, median30] sampleNow).medianAmount = 20 ∧
    (computeStats [median10, median20, median30, median40] sampleNow).medianAmount = 25 := by
  have hmain : ∀ (l : List Receipt) (nw : SimpleDate), l ≠ [] →
      (computeStats l nw).medianAmount = specMedian (l.map Receipt.amount) := by
    intro l nw hne
    have hl : ¬ l.length = 0 := by simpa [List.length_eq_zero] using hne
    rw [computeStats, if_neg hl]
    dsimp only
    exact medianAmountOf_eq_specMedian l hne
  refine ⟨hmain receipts now, ?_, ?_⟩
  · rw [hmain _ _ (List.cons_ne_nil _ _)]
    have hs : (([10, 20, 30] : List ℚ).mergeSort fun a b => decide (a ≤ b)) = [10, 20, 30] :=
      List.mergeSort_of_sorted (by decide)
    simp only [median10, median20, median30, List.map_cons, List.map_nil]
    norm_num [specMedian, hs]
  · rw [hmain _ _ (List.cons_ne_nil _ _)]
    have hs : (([10, 20, 30, 40] : List ℚ).mergeSort fun a b => decide (a ≤ b))
        = [10, 20, 30, 40] :=
      List.mergeSort_of_sorted (by decide)
    simp only [median10, median20, median30, median40, List.map_cons, List.map_nil]
    norm_num [specMedian, hs]

theorem csvRowOf_eq_spec (r : Receipt) : csvRowOf r = specCsvRow r := rfl

/-- C7: for every non-empty record set the export download is the CSV text
with the fixed header `Date,Vendor,Amount,Category,File,Confidence` followed
by one spec-shaped row per record in the set's order (quoted vendor and file
name, two-decimal amount and confidence); on a concrete one-record set the
output is exactly the header line, a newline, and the one data row, and
amount 5 renders as "5.00". -/
theorem export_csv_format (receipts : List Receipt) :
    (receipts ≠ [] →
      (handleExport receipts).download
        = some (String.intercalate "\n"
            ("Date,Vendor,Amount,Category,File,Confidence" :: receipts.map specCsvRow))) ∧
    csvContentOf [sampleReceipt]
      = "Date,Vendor,Amount,Category,File,Confidence" ++ "\n"
        ++ "2025-01-15,\"Cafe\",5.00,dining,\"r.png\",0.90" ∧
    toFixed2 5 = "5.00" := by
  refine ⟨?_, by decide, by decide⟩
  intro h
  rw [handleExport, if_neg (by simpa [List.length_eq_zero] using h)]
  dsimp only
  unfold csvContentOf
  have hhdr : String.intercalate "," csvHeaderCells
      = "Date,Vendor,Amount,Category,File,Confidence" := by decide
  have hmap : receipts.map csvRowOf = receipts.map specCsvRow :=
    congrArg (fun f => List.map f receipts) (funext csvRowOf_eq_spec)
  rw [hhdr, hmap]

/-- Witness for C7: the CSV shape theorem applied at a concrete record set. -/
theorem export_csv_format_witness :
    (handleExport [sampleReceipt2]).download
      = some (String.intercalate "\n"
          ("Date,Vendor,Amount,Category,File,Confidence" :: [sampleReceipt2].map specCsvRow)) :=
  (export_csv_format [sampleReceipt2]).1 (List.cons_ne_nil _ _)

theorem monthlyTrendOf_length (receipts : List Receipt) (now : SimpleDate) :
    (monthlyTrendOf receipts now).length = 6 := by
  unfold monthlyTrendOf
  rw [List.length_map, List.length_range]

theorem monthlyTrendOf_getD (receipts : List Receipt) (now : SimpleDate) (j : Nat)
    (hj : j < 6) :
    (monthlyTrendOf receipts now).getD j ⟨"", 0⟩ = trendPointOf receipts now (5 - (j : Int)) := by
  unfold monthlyTrendOf
  rw [List.getD_eq_getElem _ _ (by simpa using hj)]
  simp only [List.getElem_map, List.getElem_range]

theorem trendPointOf_eq_spec (receipts : List Receipt) (now : SimpleDate) (k : Nat)
    (hk : k ≤ 5) (h0 : 0 ≤ now.month) (h1 : now.month ≤ 11) :
    trendPointOf receipts now (k : Int)
      = ⟨monthName (specMonthBack now k).2 ++ " " ++ toString (specMonthBack now k).1,
          specMonthSum receipts (specMonthBack now k).1 (specMonthBack now k).2⟩ := by
  unfold trendPointOf jsMonthNorm specMonthBack
  by_cases hc : (k : Int) ≤ now.month
  · have he1 : (now.month - k) / 12 = 0 := by omega
    have he2 : (now.month - k) % 12 = now.month - k := by omega
    rw [if_pos hc]
    dsimp only
    rw [he1, he2, add_zero, monthSpend_eq_spec]
  · have he1 : (now.month - k) / 12 = -1 := by omega
    have he2 : (now.month - k) % 12 = now.month - k + 12 := by omega
    rw [if_neg hc]
    dsimp only
    rw [he1, he2, monthSpend_eq_spec]
    rw [show now.year + (-1 : Int) = now.year - 1 from by ring]

/-- C5: for every non-empty record set and calendar evaluation time, the
monthly trend has exactly six points; the point at index `j` carries the
month/year label and the summed amount of the calendar month `5 - j` months
before now (so the points run chronologically from now−5 to now); and a month
with no matching records contributes a point with amount zero rather than
being absent. -/
theorem monthly_trend_six_points (receipts : List Receipt) (now : SimpleDate)
    (h : receipts ≠ []) (h0 : 0 ≤ now.month) (h1 : now.month ≤ 11) :
    (computeStats receipts now).monthlyTrend.length = 6 ∧
    (∀ j : Nat, j < 6 →
      (computeStats receipts now).monthlyTrend.getD j ⟨"", 0⟩
        = ⟨monthName (specMonthBack now (5 - j)).2 ++ " "
              ++ toString (specMonthBack now (5 - j)).1,
            specMonthSum receipts (specMonthBack now (5 - j)).1 (specMonthBack now (5 - j)).2⟩) ∧
    (∀ j : Nat, j < 6 →
      (∀ r ∈ receipts,
        ¬(r.date.year = (specMonthBack now (5 - j)).1 ∧
          r.date.month = (specMonthBack now (5 - j)).2)) →
      ((computeStats receipts now).monthlyTrend.getD j ⟨"", 0⟩).amount = 0) := by
  have hl : ¬ receipts.length = 0 := by simpa [List.length_eq_zero] using h
  rw [computeStats, if_neg hl]
  dsimp only
  have hpoint : ∀ j : Nat, j < 6 →
      (monthlyTrendOf receipts now).getD j ⟨"", 0⟩
        = ⟨monthName (specMonthBack now (5 - j)).2 ++ " "
              ++ toString (specMonthBack now (5 - j)).1,
            specMonthSum receipts (specMonthBack now (5 - j)).1
              (specMonthBack now (5 - j)).2⟩ := by
    intro j hj
    rw [monthlyTrendOf_getD _ _ _ hj]
    have hcast : (5 : Int) - (j : Int) = ((5 - j : Nat) : Int) := by omega
    rw [hcast]
    exact trendPointOf_eq_spec receipts now (5 - j) (by omega) h0 h1
  refine ⟨monthlyTrendOf_length receipts now, hpoint, ?_⟩
  intro j hj hnone
  rw [hpoint j hj]
  dsimp only
  unfold specMonthSum
  have hnil : (receipts.filter fun r =>
      decide (r.date.year = (specMonthBack now (5 - j)).1 ∧
        r.date.month = (specMonthBack now (5 - j)).2)) = [] := by
    rw [List.filter_eq_nil_iff]
    intro r hr
    simpa using hnone r hr
  rw [hnil]
  rfl

/-- Witness for C5: the trend-shape theorem applied to a concrete record set
in October 2025 (its length conjunct). -/
theorem monthly_trend_six_points_witness :
    (computeStats [sampleReceipt2] sampleNow).monthlyTrend.length = 6 :=
  (monthly_trend_six_points [sampleReceipt2] sampleNow (List.cons_ne_nil _ _)
    (by decide) (by decide)).1

/-- C10: for every non-empty record set and calendar evaluation time, the
amount of the last (sixth) trend point equals `currentMonthSpend`: both sum
the amounts of records dated in the current calendar month and year. -/
theorem trend_last_equals_current_month (receipts : List Receipt) (now : SimpleDate)
    (h : receipts ≠ []) (h0 : 0 ≤ now.month) (h1 : now.month ≤ 11) :
    ((computeStats receipts now).monthlyTrend.getD 5 ⟨"", 0⟩).amount
      = (computeStats receipts now).currentMonthSpend := by
  have hl : ¬ receipts.length = 0 := by simpa [List.length_eq_zero] using h
  rw [computeStats, if_neg hl]
  dsimp only
  rw [monthlyTrendOf_getD receipts now 5 (by omega)]
  unfold trendPointOf jsMonthNorm currentMonthSpendOf
  have hz : (5 : Int) - ((5 : Nat) : Int) = 0 := by omega
  rw [hz]
  have he1 : (now.month - 0) / 12 = 0 := by omega
  have he2 : (now.month - 0) % 12 = now.month := by omega
  dsimp only
  rw [he1, he2, add_zero]

/-- Witness for C10 at a concrete record set and evaluation time. -/
theorem trend_last_equals_current_month_witness :
    ((computeStats [sampleReceipt2] sampleNow).monthlyTrend.getD 5 ⟨"", 0⟩).amount
      = (computeStats [sampleReceipt2] sampleNow).currentMonthSpend :=
  trend_last_equals_current_month [sampleReceipt2] sampleNow (List.cons_ne_nil _ _)
    (by decide) (by decide)

/-- Witness for C3: the general median theorem applied at a concrete
two-record set. -/
theorem median_matches_spec_witness :
    (computeStats [sampleReceipt, sampleReceipt2] sampleNow).medianAmount
      = specMedian ([sampleReceipt, sampleReceipt2].map Receipt.amount) :=
  (median_matches_spec [sampleReceipt, sampleReceipt2] sampleNow).1 (List.cons_ne_nil _ _)

/- ### The vendor counter: association-list lemmas for the top-vendor claim -/

theorem lookupC_bump_self (acc : List (String × Nat)) (v : String) :
    lookupC (bumpCount acc v) v = lookupC acc v + 1 := by
  induction acc with
  | nil => simp [bumpCount, lookupC]
  | cons kc t ih =>
    obtain ⟨k, c⟩ := kc
    by_cases h : k = v <;> simp [bumpCount, lookupC, h, ih]

theorem lookupC_bump_ne (acc : List (String × Nat)) (v w : String) (h : w ≠ v) :
    lookupC (bumpCount acc v) w = lookupC acc w := by
  induction acc with
  | nil => simp [bumpCount, lookupC, Ne.symm h]
  | cons kc t ih =>
    obtain ⟨k, c⟩ := kc
    by_cases hkv : k = v
    · subst hkv
      have hkw : ¬ k = w := fun e => h e.symm
      simp [bumpCount, lookupC, hkw]
    · by_cases hkw : k = w
      · subst hkw
        simp [bumpCount, lookupC, hkv]
      · simp [bumpCount, lookupC, hkv, hkw, ih]

theorem mem_keys_bump (acc : List (String × Nat)) (v w : String) :
    w ∈ (bumpCount acc v).map Prod.fst ↔ w ∈ acc.map Prod.fst ∨ w = v := by
  induction acc with
  | nil => simp [bumpCount]
  | cons kc t ih =>
    obtain ⟨k, c⟩ := kc
    by_cases h : k = v <;> simp [bumpCount, h, ih, List.mem_cons] <;> tauto

theorem nodup_keys_bump (acc : List (String × Nat)) (v : String)
    (h : (acc.map Prod.fst).Nodup) : ((bumpCount acc v).map Prod.fst).Nodup := by
  induction acc with
  | nil => simp [bumpCount]
  | cons kc t ih =>
    obtain ⟨k, c⟩ := kc
    simp only [List.map_cons, List.nodup_cons] at h
    by_cases hk : k = v
    · subst hk
      simpa [bumpCount, List.nodup_cons] using h
    · simp only [bumpCount, if_neg hk, List.map_cons, List.nodup_cons]
      refine ⟨?_, ih h.2⟩
      rw [mem_keys_bump]
      rintro (hm | hm)
      · exact h.1 hm
      · exact hk hm

theorem lookupC_of_mem (acc : List (String × Nat)) (h : (acc.map Prod.fst).Nodup)
    (k : String) (c : Nat) (hm : (k, c) ∈ acc) : lookupC acc k = c := by
  induction acc with
  | nil => simp at hm
  | cons kc t ih =>
    obtain ⟨k', c'⟩ := kc
    simp only [List.map_cons, List.nodup_cons] at h
    rcases List.mem_cons.mp hm with heq | ht
    · cases heq
      simp [lookupC]
    · have hk : ¬ k' = k := by
        intro e
        subst e
        exact h.1 (List.mem_map.mpr ⟨(k', c), ht, rfl⟩)
      simp [lookupC, hk, ih h.2 ht]

theorem mem_of_mem_keys (acc : List (String × Nat)) (k : String)
    (h : k ∈ acc.map Prod.fst) : (k, lookupC acc k) ∈ acc := by
  induction acc with
  | nil => simp at h
  | cons kc t ih =>
    obtain ⟨k', c'⟩ := kc
    by_cases hk : k' = k
    · subst hk
      simp [lookupC]
    · simp only [List.map_cons, List.mem_cons] at h
      rcases h with h | h
      · exact absurd h.symm hk
      · simp only [lookupC, if_neg hk, List.mem_cons]
        exact Or.inr (ih h)

theorem lookupC_vendor_foldl (l : List Receipt) (acc : List (String × Nat)) (w : String) :
    lookupC (l.foldl (fun a r => bumpCount a r.vendor) acc) w
      = lookupC acc w + (l.map Receipt.vendor).count w := by
  induction l generalizing acc with
  | nil => simp
  | cons r t ih =>
    rw [List.foldl_cons, ih]
    by_cases h : r.vendor = w
    · subst h
      rw [lookupC_bump_self]
      simp [List.count_cons]
      omega
    · rw [lookupC_bump_ne _ _ _ (fun e => h e.symm)]
      simp [List.count_cons, h]

theorem mem_keys_vendor_foldl (l : List Receipt) (acc : List (String × Nat)) (w : String) :
    w ∈ ((l.foldl (fun a r => bumpCount a r.vendor) acc).map Prod.fst)
      ↔ w ∈ acc.map Prod.fst ∨ w ∈ l.map Receipt.vendor := by
  induction l generalizing acc with
  | nil => simp
  | cons r t ih =>
    rw [List.foldl_cons, ih, mem_keys_bump]
    simp [List.mem_cons]
    tauto

theorem nodup_keys_vendor_foldl (l : List Receipt) (acc : List (String × Nat))
    (h : (acc.map Prod.fst).Nodup) :
    (((l.foldl (fun a r => bumpCount a r.vendor) acc)).map Prod.fst).Nodup := by
  induction l generalizing acc with
  | nil => exact h
  | cons r t ih => exact ih _ (nodup_keys_bump acc r.vendor h)

theorem vendorCounts_lookup (l : List Receipt) (w : String) :
    lookupC (vendorCountsOf l) w = (l.map Receipt.vendor).count w := by
  unfold vendorCountsOf
  rw [lookupC_vendor_foldl]
  simp [lookupC]

theorem vendorCounts_keys (l : List Receipt) (w : String) :
    w ∈ (vendorCountsOf l).map Prod.fst ↔ w ∈ l.map Receipt.vendor := by
  unfold vendorCountsOf
  rw [mem_keys_vendor_foldl]
  simp

theorem vendorCounts_nodup (l : List Receipt) :
    ((vendorCountsOf l).map Prod.fst).Nodup :=
  nodup_keys_vendor_foldl l [] (by simp)

/-- C6: for every non-empty record set, `topVendor` occurs among the set's
vendors, its occurrence count is maximal among all vendors of the set, and it
is a deterministic function of the record set alone (independent of the
evaluation time). -/
theorem top_vendor_most_frequent (receipts : List Receipt) (now : SimpleDate)
    (h : receipts ≠ []) :
    (computeStats receipts now).topVendor ∈ receipts.map Receipt.vendor ∧
    (∀ v ∈ receipts.map Receipt.vendor,
      (receipts.map Receipt.vendor).count v
        ≤ (receipts.map Receipt.vendor).count ((computeStats receipts now).topVendor)) ∧
    (computeStats receipts now).topVendor = topVendorOf receipts := by
  have hl : ¬ receipts.length = 0 := by simpa [List.length_eq_zero] using h
  rw [computeStats, if_neg hl]
  dsimp only
  have hperm : ((vendorCountsOf receipts).mergeSort fun x y => decide (y.2 ≤ x.2)).Perm
      (vendorCountsOf receipts) := List.mergeSort_perm _ _
  have hsortPair : ((vendorCountsOf receipts).mergeSort fun x y => decide (y.2 ≤ x.2)).Pairwise
      (fun x y => decide (y.2 ≤ x.2) = true) :=
    List.sorted_mergeSort
      (by intro a b c hab hbc; simp only [decide_eq_true_eq] at *; omega)
      (by intro a b; simp only [Bool.or_eq_true, decide_eq_true_eq]; omega)
      (vendorCountsOf receipts)
  have hne : ((vendorCountsOf receipts).mergeSort fun x y => decide (y.2 ≤ x.2)) ≠ [] := by
    intro e
    obtain ⟨r, t, rfl⟩ := List.exists_cons_of_ne_nil h
    have hmemk : r.vendor ∈ (vendorCountsOf (r :: t)).map Prod.fst := by
      rw [vendorCounts_keys]
      simp
    have hvcnil : vendorCountsOf (r :: t) = [] := by
      have h0 := hperm
      rw [e] at h0
      exact h0.nil_eq.symm
    rw [hvcnil] at hmemk
    simp at hmemk
  obtain ⟨e, rest, hcons⟩ := List.exists_cons_of_ne_nil hne
  unfold topVendorOf
  rw [hcons]
  dsimp only
  have he_mem : e ∈ vendorCountsOf receipts := by
    apply hperm.mem_iff.mp
    rw [hcons]
    exact List.mem_cons_self e rest
  have he_key : e.1 ∈ receipts.map Receipt.vendor := by
    rw [← vendorCounts_keys]
    exact List.mem_map.mpr ⟨e, he_mem, rfl⟩
  have he_count : (receipts.map Receipt.vendor).count e.1 = e.2 := by
    rw [← vendorCounts_lookup]
    exact lookupC_of_mem _ (vendorCounts_nodup receipts) e.1 e.2 he_mem
  refine ⟨he_key, ?_, rfl⟩
  intro v hv
  have hvkey : v ∈ (vendorCountsOf receipts).map Prod.fst := (vendorCounts_keys _ _).mpr hv
  have hventry : (v, lookupC (vendorCountsOf receipts) v) ∈ vendorCountsOf receipts :=
    mem_of_mem_keys _ v hvkey
  have hvsorted : (v, lookupC (vendorCountsOf receipts) v) ∈ e :: rest := by
    rw [← hcons]
    exact hperm.symm.mem_iff.mp hventry
  have hvcount : (receipts.map Receipt.vendor).count v
      = lookupC (vendorCountsOf receipts) v := (vendorCounts_lookup _ _).symm
  rcases List.mem_cons.mp hvsorted with heq | hrest
  · have h1 : lookupC (vendorCountsOf receipts) v = e.2 := congrArg Prod.snd heq
    rw [hvcount, h1, he_count]
  · have hp : List.Pairwise (fun x y => decide (y.2 ≤ x.2) = true) (e :: rest) := by
      rw [← hcons]
      exact hsortPair
    have hhead := (List.pairwise_cons.mp hp).1 _ hrest
    simp only [decide_eq_true_eq] at hhead
    rw [hvcount, he_count]
    exact hhead

/-- Witness for C6 at a concrete two-record set. -/
theorem top_vendor_most_frequent_witness :
    (computeStats [sampleReceipt, sampleReceipt2] sampleNow).topVendor
      ∈ [sampleReceipt, sampleReceipt2].map Receipt.vendor :=
  (top_vendor_most_frequent [sampleReceipt, sampleReceipt2] sampleNow
    (List.cons_ne_nil _ _)).1

/- ### Comparator characterisations for the filter/sort engine -/

theorem strCmp_nonpos (a b : String) : strCmp a b ≤ 0 ↔ a ≤ b := by
  unfold strCmp
  split_ifs with h1 h2
  · exact iff_of_true (by norm_num) h1.le
  · exact iff_of_false (by norm_num) (not_le.mpr h2)
  · exact iff_of_true le_rfl (le_of_not_lt h2)

theorem strCmp_nonneg (a b : String) : 0 ≤ strCmp a b ↔ b ≤ a := by
  unfold strCmp
  split_ifs with h1 h2
  · exact iff_of_false (by norm_num) (not_le.mpr h1)
  · exact iff_of_true (by norm_num) h2.le
  · exact iff_of_true le_rfl (le_of_not_lt h1)

theorem cmpField_nonpos (sf : SortField) (a b : Receipt) :
    cmpField sf a b ≤ 0 ↔ fieldLE sf a b := by
  cases sf
  · simp only [cmpField, fieldLE, Int.cast_nonpos, sub_nonpos]
  · simp only [cmpField, fieldLE, sub_nonpos]
  · exact strCmp_nonpos _ _
  · exact strCmp_nonpos _ _

theorem cmpField_neg_nonpos (sf : SortField) (a b : Receipt) :
    -(cmpField sf a b) ≤ 0 ↔ fieldLE sf b a := by
  rw [neg_nonpos]
  cases sf
  · simp only [cmpField, fieldLE, Int.cast_nonneg, sub_nonneg]
  · simp only [cmpField, fieldLE, sub_nonneg]
  · exact strCmp_nonneg _ _
  · exact strCmp_nonneg _ _

theorem sortLE_iff (sf : SortField) (sd : SortDirection) (a b : Receipt) :
    sortLE sf sd a b = true ↔ dirFieldLE sf sd a b := by
  unfold sortLE
  rw [decide_eq_true_iff]
  cases sd
  · dsimp only [dirCmp, dirFieldLE]
    exact cmpField_nonpos sf a b
  · dsimp only [dirCmp, dirFieldLE]
    exact cmpField_neg_nonpos sf a b

theorem fieldLE_total (sf : SortField) (a b : Receipt) : fieldLE sf a b ∨ fieldLE sf b a := by
  cases sf <;> exact le_total _ _

theorem fieldLE_trans (sf : SortField) {a b c : Receipt}
    (h1 : fieldLE sf a b) (h2 : fieldLE sf b c) : fieldLE sf a c := by
  cases sf <;> exact le_trans h1 h2

theorem dirFieldLE_total (sf : SortField) (sd : SortDirection) (a b : Receipt) :
    dirFieldLE sf sd a b ∨ dirFieldLE sf sd b a := by
  cases sd
  · exact fieldLE_total sf a b
  · exact fieldLE_total sf b a

theorem dirFieldLE_trans (sf : SortField) (sd : SortDirection) {a b c : Receipt}
    (h1 : dirFieldLE sf sd a b) (h2 : dirFieldLE sf sd b c) : dirFieldLE sf sd a c := by
  cases sd
  · exact fieldLE_trans sf h1 h2
  · exact fieldLE_trans sf h2 h1

/-- C1: the filter/sort engine returns a permutation of exactly the records
satisfying the conjunction of the four predicate families, ordered by the
chosen key in the chosen direction; with no active filters it returns a
permutation of the whole input; with only the category filter set to
"dining" it returns exactly the records whose category is "dining". -/
theorem filter_sort_engine_spec (receipts : List Receipt) (fs : FilterState)
    (sf : SortField) (sd : SortDirection) :
    (filteredAndSortedReceipts receipts fs sf sd).Perm
      (receipts.filter fun r =>
        matchesSearch fs r && matchesCategory fs r && matchesDate fs r && matchesAmount fs r) ∧
    (filteredAndSortedReceipts receipts fs sf sd).Pairwise (dirFieldLE sf sd) ∧
    ((fs.searchTerm = "" ∧ fs.categoryFilter = "all" ∧ fs.dateFilter = "all" ∧
        fs.amountMin = none ∧ fs.amountMax = none) →
      (filteredAndSortedReceipts receipts fs sf sd).Perm receipts) ∧
    ((fs.searchTerm = "" ∧ fs.categoryFilter = "dining" ∧ fs.dateFilter = "all" ∧
        fs.amountMin = none ∧ fs.amountMax = none) →
      ∀ r : Receipt, r ∈ filteredAndSortedReceipts receipts fs sf sd
        ↔ (r ∈ receipts ∧ r.category = "dining")) := by
  have hperm : (filteredAndSortedReceipts receipts fs sf sd).Perm
      (receipts.filter fun r =>
        matchesSearch fs r && matchesCategory fs r && matchesDate fs r && matchesAmount fs r) :=
    List.mergeSort_perm _ _
  have hsorted : (filteredAndSortedReceipts receipts fs sf sd).Pairwise (dirFieldLE sf sd) := by
    have hp := @List.sorted_mergeSort Receipt (sortLE sf sd)
      (by
        intro a b c hab hbc
        rw [sortLE_iff] at *
        exact dirFieldLE_trans sf sd hab hbc)
      (by
        intro a b
        rw [Bool.or_eq_true, sortLE_iff, sortLE_iff]
        exact dirFieldLE_total sf sd a b)
      (receipts.filter fun r =>
        matchesSearch fs r && matchesCategory fs r && matchesDate fs r && matchesAmount fs r)
    exact hp.imp fun hab => (sortLE_iff sf sd _ _).mp hab
  refine ⟨hperm, hsorted, ?_, ?_⟩
  · rintro ⟨h1, h2, h3, h4, h5⟩
    have hfilter : (receipts.filter fun r =>
        matchesSearch fs r && matchesCategory fs r && matchesDate fs r && matchesAmount fs r)
          = receipts := by
      rw [List.filter_eq_self]
      intro r _
      simp [matchesSearch, matchesCategory, matchesDate, matchesAmount, h1, h2, h3, h4, h5]
    rw [hfilter] at hperm
    exact hperm
  · rintro ⟨h1, h2, h3, h4, h5⟩
    intro r
    rw [hperm.mem_iff, List.mem_filter]
    simp [matchesSearch, matchesCategory, matchesDate, matchesAmount, h1, h2, h3, h4, h5]

/-- Witness for C1: with only the dining category filter active, a concrete
dining receipt is in the engine's output. -/
theorem filter_sort_engine_spec_witness :
    sampleReceipt ∈ filteredAndSortedReceipts [sampleReceipt, sampleReceipt2]
      diningFilter SortField.amount SortDirection.asc :=
  ((filter_sort_engine_spec [sampleReceipt, sampleReceipt2] diningFilter
      SortField.amount SortDirection.asc).2.2.2 ⟨rfl, rfl, rfl, rfl, rfl⟩
    sampleReceipt).mpr ⟨List.mem_cons_self _ _, rfl⟩

end BillGen
